import Mathlib

/-!
Verification of the register-mapping and value-encoding engine of the
ymodbustcp repository (files `src/ymodbustcp.py` and `src/main.py`).

The Python sources are shallowly embedded as executable Lean definitions:

* Python `float` measurement values are modelled as exact rationals `ℚ`
  (every finite IEEE-754 double is a rational; arithmetic is exact).
* Python exceptions are modelled by `Except PyErr`; running code that would
  raise returns `.error e` with the corresponding exception tag.
* Python `dict` (with `int` keys) is modelled as an insertion-ordered
  association list `PyDict`, assignment replacing an existing key in place.
* The external Yoctopuce sensor layer (`YSensor.FindSensor(hwid)` followed
  by `get_currentValue()`) is modelled by an oracle `live : String → ℚ`
  giving the current measurement of each hardware id.
* The byte/register packing done by pymodbus' `BinaryPayloadBuilder`
  (byteorder big-endian, wordorder big-endian) on top of CPython's
  `struct.pack` is modelled bit-exactly, including the `struct.error`
  raised for out-of-range integers and the `OverflowError` raised for
  floats too large for the half/single formats.
-/

/-- Python exception kinds that the embedded code can raise. -/
inductive PyErr where
  | keyError
  | indexError
  | valueError
  | structError
  | overflowError
deriving DecidableEq

instance {ε α : Type} [DecidableEq ε] [DecidableEq α] : DecidableEq (Except ε α) := fun x y =>
  match x, y with
  | .ok a, .ok b => if h : a = b then .isTrue (by rw [h]) else .isFalse (by simp [h])
  | .error e, .error e' => if h : e = e' then .isTrue (by rw [h]) else .isFalse (by simp [h])
  | .ok _, .error _ => .isFalse (by simp)
  | .error _, .ok _ => .isFalse (by simp)

/-- Python `dict` with `int` keys, as an insertion-ordered association list. -/
abbrev PyDict (α : Type) : Type := List (Int × α)

/-- Python `d[k] = v`: replace the value of an existing key in place,
otherwise append the new pair at the end. -/
def dictSet {α : Type} : PyDict α → Int → α → PyDict α
  | [], k, v => [(k, v)]
  | (k', v') :: rest, k, v =>
    if k' = k then (k, v) :: rest else (k', v') :: dictSet rest k v

/-- Python `d[k]` lookup, `none` when the key is absent (a `KeyError` site). -/
def dictGet {α : Type} : PyDict α → Int → Option α
  | [], _ => none
  | (k', v') :: rest, k => if k' = k then some v' else dictGet rest k

/-- Python `int(val)` on a float: truncation toward zero. -/
def pyInt (q : ℚ) : Int :=
  if 0 ≤ q.num then q.num / (q.den : Int) else -((-q.num) / (q.den : Int))

/-- Round the fraction `N / D` (with `D > 0`) to the nearest natural number,
ties to even — the rounding used by CPython when packing floats. -/
def rhe (N D : ℕ) : ℕ :=
  let q := N / D
  let r := N % D
  if 2 * r < D then q
  else if D < 2 * r then q + 1
  else if q % 2 = 0 then q else q + 1

/-- Fuel-driven helper for `bitLen`. -/
def bitLenAux : ℕ → ℕ → ℕ
  | 0, _ => 0
  | _, 0 => 0
  | fuel + 1, n + 1 => bitLenAux fuel ((n + 1) / 2) + 1

/-- Number of binary digits of `n` (0 for 0). -/
def bitLen (n : ℕ) : ℕ := bitLenAux n n

/-- Decide `2 ^ e ≤ a / d` for naturals `a d > 0` and an integer exponent. -/
def pow2le (e : ℤ) (a d : ℕ) : Bool :=
  match e with
  | .ofNat k => 2 ^ k * d ≤ a
  | .negSucc k => d ≤ 2 ^ (k + 1) * a

/-- Greatest `e : ℤ` with `2 ^ e ≤ a / d`, for `a, d ≥ 1`. -/
def floorLog2 (a d : ℕ) : ℤ :=
  let e0 : ℤ := (bitLen a : ℤ) - (bitLen d : ℤ)
  if pow2le e0 a d then e0 else e0 - 1

/-- Round `(a / d) / 2 ^ qe` to the nearest natural, ties to even. -/
def scaledRound (a d : ℕ) (qe : ℤ) : ℕ :=
  match qe with
  | .ofNat k => rhe a (d * 2 ^ k)
  | .negSucc k => rhe (a * 2 ^ (k + 1)) d

/-- IEEE-754 binary interchange encoding with `fb` fraction bits and `eb`
exponent bits: the bit pattern of `q` rounded to the nearest representable
value (ties to even, subnormals and underflow-to-zero included), or
`OverflowError` when the rounded magnitude does not fit a finite value —
exactly what CPython's `struct.pack` does for the `e` and `f` formats. -/
def ieeeBits (fb eb : ℕ) (q : ℚ) : Except PyErr ℕ :=
  let a : ℕ := q.num.natAbs
  let d : ℕ := q.den
  if a = 0 then .ok 0 else
  let s : ℕ := if q.num < 0 then 1 else 0
  let bias : ℤ := 2 ^ (eb - 1) - 1
  let e : ℤ := floorLog2 a d
  let qe : ℤ := max (e - fb) (1 - bias - fb)
  let n0 : ℕ := scaledRound a d qe
  let n : ℕ := if n0 = 2 ^ (fb + 1) then 2 ^ fb else n0
  let qe' : ℤ := if n0 = 2 ^ (fb + 1) then qe + 1 else qe
  if n = 0 then .ok (s * 2 ^ (eb + fb))
  else if n < 2 ^ fb then .ok (s * 2 ^ (eb + fb) + n)
  else
    let E : ℤ := qe' + fb + bias
    if 2 ^ eb - 1 ≤ E then .error .overflowError
    else .ok (s * 2 ^ (eb + fb) + E.toNat * 2 ^ fb + (n - 2 ^ fb))

/-- Payload bytes of `BinaryPayloadBuilder.add_8bit_int` (struct format
`>b`): one two's-complement byte, `struct.error` outside -128..127. -/
def add_8bit_int (value : ℤ) : Except PyErr (List ℕ) :=
  if -128 ≤ value ∧ value ≤ 127 then
    .ok [(value % 256).toNat]
  else .error .structError

/-- Payload bytes of `add_16bit_int` (struct format `>h`): two big-endian
two's-complement bytes, `struct.error` outside -32768..32767. -/
def add_16bit_int (value : ℤ) : Except PyErr (List ℕ) :=
  if -32768 ≤ value ∧ value ≤ 32767 then
    let u : ℕ := (value % 65536).toNat
    .ok [u / 256 % 256, u % 256]
  else .error .structError

/-- Payload bytes of `add_32bit_int` (struct format `!i`, big-endian word
order): four big-endian two's-complement bytes, `struct.error` outside the
signed 32-bit range. -/
def add_32bit_int (value : ℤ) : Except PyErr (List ℕ) :=
  if -2147483648 ≤ value ∧ value ≤ 2147483647 then
    let u : ℕ := (value % 4294967296).toNat
    .ok [u / 16777216 % 256, u / 65536 % 256, u / 256 % 256, u % 256]
  else .error .structError

/-- Payload bytes of `add_16bit_float` (struct format `>e`): the IEEE-754
half-precision bit pattern, most significant byte first. -/
def add_16bit_float (value : ℚ) : Except PyErr (List ℕ) :=
  match ieeeBits 10 5 value with
  | .error e => .error e
  | .ok bits => .ok [bits / 256 % 256, bits % 256]

/-- Payload bytes of `add_32bit_float` (struct format `!f`, big-endian word
order): the IEEE-754 single-precision bit pattern, most significant byte
first. -/
def add_32bit_float (value : ℚ) : Except PyErr (List ℕ) :=
  match ieeeBits 23 8 value with
  | .error e => .error e
  | .ok bits => .ok [bits / 16777216 % 256, bits / 65536 % 256, bits / 256 % 256, bits % 256]

/-- The `build` + `to_registers` step of `BinaryPayloadBuilder` with big
byteorder: pad the byte payload to even length with a zero byte, then
read consecutive byte pairs as big-endian 16-bit register words. -/
def to_registers : List ℕ → List ℕ
  | [] => []
  | [b] => [b * 256]
  | b1 :: b2 :: rest => (b1 * 256 + b2) :: to_registers rest

/-- A heterogeneous Python value as it occurs in the data block's scratch
dict and in `getValues` results: an `int` or a list of register words. -/
inductive PyVal where
  | pint (n : ℤ)
  | plist (ws : List ℕ)
deriving DecidableEq

namespace Ymod

/-- The `YocotpuceBinding` class of `src/ymodbustcp.py` (source spelling):
one logical device at a base register with an encoding-name string.  The
`ysensor` field resolved by `YSensor.FindSensor` is external; the current
measurement is supplied by a `live : String → ℚ` oracle keyed by `hwid`. -/
structure YocotpuceBinding where
  reg_no : ℤ
  hwid : String
  encoding : String
deriving DecidableEq

/-- The body of `YocotpuceBinding.encode_value`, with `self.encoding`
passed explicitly: build a big-endian payload for the chosen encoding
(an unrecognized name falls through every branch, leaving the payload
empty) and convert it to register words. -/
def encode_value (encoding : String) (val : ℚ) : Except PyErr (List ℕ) :=
  match
    (if encoding = "int8" then add_8bit_int (pyInt val)
     else if encoding = "int16" then add_16bit_int (pyInt val)
     else if encoding = "int32" then add_32bit_int (pyInt val)
     else if encoding = "float16" then add_16bit_float val
     else if encoding = "float32" then add_32bit_float val
     else .ok []) with
  | .error e => .error e
  | .ok payload => .ok (to_registers payload)

/-- The `get_encoded_measure` method: fetch the current live value of the
binding's sensor and encode it. -/
def get_encoded_measure (self : YocotpuceBinding) (live : String → ℚ) :
    Except PyErr (List ℕ) :=
  encode_value self.encoding (live self.hwid)

/-- The `YoctopuceDataBlock.getValues` override of `src/ymodbustcp.py`,
with `self.devices` passed explicitly: look the start address up in the
devices dict (`KeyError` when absent — this happens already in the
logging statement) and return the full freshly encoded live value.  The
`count` argument is accepted but never used. -/
def getValues (devices : PyDict YocotpuceBinding) (live : String → ℚ)
    (address : ℤ) (count : ℕ) : Except PyErr (List ℕ) :=
  match dictGet devices address with
  | none => .error .keyError
  | some b => get_encoded_measure b live

/-- The `YoctopuceDataBlock` class: the devices dict plus the scratch
values dict managed by the `ModbusSparseDataBlock` base class. -/
structure YoctopuceDataBlock where
  devices : PyDict YocotpuceBinding
  values : PyDict PyVal
deriving DecidableEq

/-- The loop of `YoctopuceDataBlock.__init__` filling the initial values
dict: one encoded live value per configured register. -/
def initLoop (live : String → ℚ) (acc : PyDict PyVal) :
    List (ℤ × YocotpuceBinding) → Except PyErr (PyDict PyVal)
  | [] => .ok acc
  | (reg, b) :: rest =>
    match get_encoded_measure b live with
    | .error e => .error e
    | .ok ws => initLoop live (dictSet acc reg (.plist ws)) rest

/-- `YoctopuceDataBlock.__init__`: store the devices dict, fill the
initial values dict with one encoded live value per device, then record
the number of devices at the sentinel address `0xbeef`.  No overlap or
emptiness check of any kind is performed. -/
def YoctopuceDataBlock.init (devices : PyDict YocotpuceBinding)
    (live : String → ℚ) : Except PyErr YoctopuceDataBlock :=
  match initLoop live [] devices with
  | .error e => .error e
  | .ok values => .ok ⟨devices, dictSet values 0xbeef (.pint values.length)⟩

/-- The per-entry loop of `ModbusSparseDataBlock.setValues` for a list
argument: `self.values[address + idx] = val` for each element. -/
def writeLoop : PyDict PyVal → ℤ → List ℤ → PyDict PyVal
  | vals, _, [] => vals
  | vals, addr, v :: rest => writeLoop (dictSet vals addr (.pint v)) (addr + 1) rest

/-- The `YoctopuceDataBlock.setValues` override: delegate to the sparse
base class (which updates only the scratch values dict) and then log.
It always succeeds and touches neither `devices` nor anything a read
consults. -/
def YoctopuceDataBlock.setValues (self : YoctopuceDataBlock) (address : ℤ)
    (value : List ℤ) : YoctopuceDataBlock :=
  { self with values := writeLoop self.values address value }

/-- The `getValues` method on a constructed block (it reads only
`self.devices` and the live oracle). -/
def YoctopuceDataBlock.getValues (self : YoctopuceDataBlock)
    (live : String → ℚ) (address : ℤ) (count : ℕ) : Except PyErr (List ℕ) :=
  Ymod.getValues self.devices live address count

end Ymod

namespace MainPy

/-- The `YoctopuceDataBlock.getValues` override of `src/main.py`, with its
`self.devices` dict (mapping register numbers to hardware-id strings)
passed explicitly: look the address up (`KeyError` when absent), refetch
the live value, scale by 1000 and truncate — returning a single `int`,
not a list.  The `count` argument is accepted but never used. -/
def getValues (devices : PyDict String) (live : String → ℚ)
    (address : ℤ) (count : ℕ) : Except PyErr ℤ :=
  match dictGet devices address with
  | none => .error .keyError
  | some hwid => .ok (pyInt (live hwid * 1000))

end MainPy

/-- The read result of `src/ymodbustcp.py` as a Python value (a list). -/
def Ymod.getValuesV (devices : PyDict Ymod.YocotpuceBinding)
    (live : String → ℚ) (address : ℤ) (count : ℕ) : Except PyErr PyVal :=
  (Ymod.getValues devices live address count).map PyVal.plist

/-- The read result of `src/main.py` as a Python value (an int). -/
def MainPy.getValuesV (devices : PyDict String) (live : String → ℚ)
    (address : ℤ) (count : ℕ) : Except PyErr PyVal :=
  (MainPy.getValues devices live address count).map PyVal.pint

/-- Word-count table of the closed encoding set as the spec states it
(Int8→1, Int16→1, Int32→2, Float16→1, Float32→2, anything else
occupying no registers); the source never materializes this table, the
width being implicit in the payload the builder produces. -/
def specWordCount (encoding : String) : ℕ :=
  if encoding = "int8" then 1
  else if encoding = "int16" then 1
  else if encoding = "int32" then 2
  else if encoding = "float16" then 1
  else if encoding = "float32" then 2
  else 0

/-- Footprint intersection of two bindings in the spec's sense: the
half-open windows `[reg_no, reg_no + wordCount)` meet. -/
def specFootprintsIntersect (b1 b2 : Ymod.YocotpuceBinding) : Prop :=
  b1.reg_no < b2.reg_no + specWordCount b2.encoding ∧
  b2.reg_no < b1.reg_no + specWordCount b1.encoding

/-- Python whitespace for `str.strip()`. -/
def pySpace (c : Char) : Bool :=
  c.toNat = 32 || c.toNat = 9 || c.toNat = 10 || c.toNat = 13 || c.toNat = 11 || c.toNat = 12

/-- Python `str.strip()` on a character list. -/
def pyStrip (cs : List Char) : List Char :=
  ((cs.dropWhile pySpace).reverse.dropWhile pySpace).reverse

/-- Helper for `splitComma`, accumulating the current field reversed. -/
def splitCommaAux : List Char → List Char → List (List Char)
  | [], cur => [cur.reverse]
  | c :: rest, cur =>
    if c = ',' then cur.reverse :: splitCommaAux rest [] else splitCommaAux rest (c :: cur)

/-- Python `str.split(',')`: the empty string yields one empty field. -/
def splitComma (cs : List Char) : List (List Char) := splitCommaAux cs []

/-- Python sequence indexing `l[i]`, raising `IndexError` out of range. -/
def pyIndex {α : Type} (l : List α) (i : ℕ) : Except PyErr α :=
  match l[i]? with
  | none => .error .indexError
  | some x => .ok x

/-- Numeric value of one hexadecimal digit. -/
def hexVal (c : Char) : Option ℕ :=
  if '0' ≤ c ∧ c ≤ '9' then some (c.toNat - 48)
  else if 'a' ≤ c ∧ c ≤ 'f' then some (c.toNat - 87)
  else if 'A' ≤ c ∧ c ≤ 'F' then some (c.toNat - 55)
  else none

/-- Accumulate hexadecimal digits with CPython's single-underscore
grouping rule: an underscore must be followed by a digit and must not
follow another underscore; `needDigit` records that the next character
has to be a digit (at the start without a base prefix, or right after
an underscore). -/
def hexAux (needDigit : Bool) : List Char → ℕ → Option ℕ
  | [], acc => if needDigit then none else some acc
  | c :: rest, acc =>
    if c = '_' then
      if needDigit then none else hexAux true rest acc
    else
      match hexVal c with
      | none => none
      | some d => hexAux false rest (16 * acc + d)

/-- Python `int(s, 16)`: surrounding whitespace, an optional sign, an
optional `0x`/`0X` prefix, then at least one hex digit with optional
single underscores between digits (or right after the prefix); anything
else raises `ValueError`. -/
def pyIntHex (cs : List Char) : Except PyErr ℤ :=
  let t := pyStrip cs
  let sgn : ℤ := match t with
    | '-' :: _ => -1
    | _ => 1
  let t1 : List Char := match t with
    | '-' :: r => r
    | '+' :: r => r
    | _ => t
  let base16 : Bool := match t1 with
    | '0' :: 'x' :: _ => true
    | '0' :: 'X' :: _ => true
    | _ => false
  let t2 : List Char := if base16 then t1.drop 2 else t1
  match t2 with
  | [] => .error .valueError
  | _ =>
    match hexAux (!base16) t2 0 with
    | none => .error .valueError
    | some n => .ok (sgn * n)

namespace Ymod

/-- One iteration of the `read_device_map` loop of `src/ymodbustcp.py`:
`piece = line.strip().split(',')`, then — in the evaluation order of the
source — `piece[1]` (the hardware id), `int(piece[0], 16)` (the register
number) and `piece[2]` (the encoding name, stored verbatim with no
validation whatsoever). -/
def parseLine (line : String) : Except PyErr (ℤ × String × String) := do
  let piece := splitComma (pyStrip line.data)
  let hwid ← pyIndex piece 1
  let a0 ← pyIndex piece 0
  let regno ← pyIntHex a0
  let enc ← pyIndex piece 2
  .ok (regno, String.mk hwid, String.mk enc)

/-- The line loop of `read_device_map`: a parsed entry is assigned into
the devices dict, a repeated register number silently overwriting the
earlier binding. -/
def readLoop (acc : PyDict YocotpuceBinding) :
    List String → Except PyErr (PyDict YocotpuceBinding)
  | [] => .ok acc
  | l :: rest =>
    match parseLine l with
    | .error e => .error e
    | .ok (regno, hwid, enc) => readLoop (dictSet acc regno ⟨regno, hwid, enc⟩) rest

/-- `read_device_map` of `src/ymodbustcp.py`, over the file's lines. -/
def read_device_map (lines : List String) : Except PyErr (PyDict YocotpuceBinding) :=
  readLoop [] lines

end Ymod

/-- Live-value oracle returning 1.0 for every sensor. -/
def liveOne : String → ℚ := fun _ => 1

/-- Live-value oracle returning 23.5 for every sensor. -/
def live235 : String → ℚ := fun _ => ⟨47, 2, by norm_num, by norm_num⟩

/-- A single Float32 binding at register 0x0010, as in the spec's example. -/
def devices1 : PyDict Ymod.YocotpuceBinding := [(16, ⟨16, "s1", "float32"⟩)]

/-- A single Int16 binding at register 0x0010. -/
def devicesI : PyDict Ymod.YocotpuceBinding := [(16, ⟨16, "s1", "int16"⟩)]

/-- The `src/main.py` flavour of a device map: register 0x0010 to "s1". -/
def devicesM : PyDict String := [(16, "s1")]

/-- Two bindings with intersecting footprints: a Float32 at 0x0010
(footprint 16..17) and an Int16 at 0x0011 (footprint 17). -/
def devicesOverlap : PyDict Ymod.YocotpuceBinding :=
  [(16, ⟨16, "s1", "float32"⟩), (17, ⟨17, "s2", "int16"⟩)]

/-- Three disjoint Int16 bindings. -/
def devices3 : PyDict Ymod.YocotpuceBinding :=
  [(16, ⟨16, "s1", "int16"⟩), (17, ⟨17, "s2", "int16"⟩), (18, ⟨18, "s3", "int16"⟩)]

/-- A data block over `devices1` with an empty scratch dict. -/
def blk1 : Ymod.YoctopuceDataBlock := ⟨devices1, []⟩

/-- The block obtained by constructing over `devices3` with live value 1. -/
def blk3 : Ymod.YoctopuceDataBlock :=
  ⟨devices3, [(16, .plist [1]), (17, .plist [1]), (18, .plist [1]), (0xbeef, .pint 3)]⟩

theorem dictGet_dictSet_self {α : Type} (d : PyDict α) (k : ℤ) (v : α) :
    dictGet (dictSet d k v) k = some v := by
  induction d with
  | nil => simp [dictSet, dictGet]
  | cons p rest ih =>
    obtain ⟨k', v'⟩ := p
    by_cases h : k' = k
    · simp [dictSet, dictGet, h]
    · simp [dictSet, dictGet, h, ih]

theorem dictGet_dictSet_ne {α : Type} (d : PyDict α) (k k' : ℤ) (v : α)
    (h : k' ≠ k) : dictGet (dictSet d k v) k' = dictGet d k' := by
  induction d with
  | nil => simp [dictSet, dictGet, Ne.symm h]
  | cons p rest ih =>
    obtain ⟨k0, v0⟩ := p
    by_cases hk : k0 = k
    · subst hk
      simp [dictSet, dictGet, Ne.symm h]
    · simp only [dictSet, if_neg hk, dictGet]
      by_cases hk' : k0 = k'
      · simp [hk']
      · simp [hk', ih]

theorem dictSet_length_of_get_none {α : Type} (d : PyDict α) (k : ℤ) (v : α)
    (h : dictGet d k = none) : (dictSet d k v).length = d.length + 1 := by
  induction d with
  | nil => simp [dictSet]
  | cons p rest ih =>
    obtain ⟨k0, v0⟩ := p
    simp only [dictGet] at h
    by_cases hk : k0 = k
    · simp [hk] at h
    · simp only [dictSet, if_neg hk, List.length_cons]
      rw [ih (by simpa [hk] using h)]

theorem add_8bit_int_ok {n : ℤ} {p : List ℕ} (h : add_8bit_int n = .ok p) :
    p = [(n % 256).toNat] := by
  unfold add_8bit_int at h
  split at h
  · exact (Except.ok.injEq _ _).mp h.symm
  · exact absurd h (by simp)

theorem add_16bit_int_ok {n : ℤ} {p : List ℕ} (h : add_16bit_int n = .ok p) :
    p = [(n % 65536).toNat / 256 % 256, (n % 65536).toNat % 256] := by
  unfold add_16bit_int at h
  split at h
  · exact (Except.ok.injEq _ _).mp h.symm
  · exact absurd h (by simp)

theorem add_32bit_int_ok {n : ℤ} {p : List ℕ} (h : add_32bit_int n = .ok p) :
    p = [(n % 4294967296).toNat / 16777216 % 256, (n % 4294967296).toNat / 65536 % 256,
      (n % 4294967296).toNat / 256 % 256, (n % 4294967296).toNat % 256] := by
  unfold add_32bit_int at h
  split at h
  · exact (Except.ok.injEq _ _).mp h.symm
  · exact absurd h (by simp)

theorem add_16bit_float_ok {v : ℚ} {p : List ℕ} (h : add_16bit_float v = .ok p) :
    ∃ bits, ieeeBits 10 5 v = .ok bits ∧ p = [bits / 256 % 256, bits % 256] := by
  unfold add_16bit_float at h
  split at h
  · exact absurd h (by simp)
  · next bits hb => exact ⟨bits, hb, ((Except.ok.injEq _ _).mp h).symm⟩

theorem add_32bit_float_ok {v : ℚ} {p : List ℕ} (h : add_32bit_float v = .ok p) :
    ∃ bits, ieeeBits 23 8 v = .ok bits ∧
      p = [bits / 16777216 % 256, bits / 65536 % 256, bits / 256 % 256, bits % 256] := by
  unfold add_32bit_float at h
  split at h
  · exact absurd h (by simp)
  · next bits hb => exact ⟨bits, hb, ((Except.ok.injEq _ _).mp h).symm⟩

theorem readLoop_append (acc : PyDict Ymod.YocotpuceBinding) (xs ys : List String) :
    Ymod.readLoop acc (xs ++ ys) =
      match Ymod.readLoop acc xs with
      | .error e => .error e
      | .ok d => Ymod.readLoop d ys := by
  induction xs generalizing acc with
  | nil => simp [Ymod.readLoop]
  | cons l rest ih =>
    cases hp : Ymod.parseLine l with
    | error e => simp [Ymod.readLoop, hp]
    | ok t =>
      obtain ⟨a, hw, enc⟩ := t
      simp only [List.cons_append, Ymod.readLoop, hp]
      exact ih _

theorem readLoop_ok_exists (lines : List String) (acc : PyDict Ymod.YocotpuceBinding)
    (h : ∀ l ∈ lines, ∃ t, Ymod.parseLine l = .ok t) :
    ∃ d, Ymod.readLoop acc lines = .ok d := by
  induction lines generalizing acc with
  | nil => exact ⟨acc, rfl⟩
  | cons l rest ih =>
    obtain ⟨⟨a, hw, enc⟩, hp⟩ := h l (by simp)
    simp only [Ymod.readLoop, hp]
    exact ih _ (fun l' hl' => h l' (List.mem_cons_of_mem _ hl'))

theorem readLoop_get_of_absent (lines : List String)
    (acc d : PyDict Ymod.YocotpuceBinding) (a : ℤ)
    (hok : Ymod.readLoop acc lines = .ok d)
    (ha : ∀ l ∈ lines, ∀ hw enc, Ymod.parseLine l ≠ .ok (a, hw, enc)) :
    dictGet d a = dictGet acc a := by
  induction lines generalizing acc with
  | nil =>
    simp only [Ymod.readLoop] at hok
    obtain rfl := (Except.ok.injEq _ _).mp hok
    rfl
  | cons l rest ih =>
    cases hp : Ymod.parseLine l with
    | error e => simp [Ymod.readLoop, hp] at hok
    | ok t =>
      obtain ⟨a', hw, enc⟩ := t
      simp only [Ymod.readLoop, hp] at hok
      have hne : a ≠ a' := by
        intro hh
        exact ha l (by simp) hw enc (by rw [hp, hh])
      rw [ih _ hok (fun l' hl' => ha l' (by simp [hl']))]
      exact dictGet_dictSet_ne _ _ _ _ hne

theorem initLoop_ok_exists (live : String → ℚ)
    (ds : List (ℤ × Ymod.YocotpuceBinding)) (acc : PyDict PyVal)
    (h : ∀ p ∈ ds, ∃ ws, Ymod.get_encoded_measure p.2 live = .ok ws) :
    ∃ vals, Ymod.initLoop live acc ds = .ok vals := by
  induction ds generalizing acc with
  | nil => exact ⟨acc, rfl⟩
  | cons p rest ih =>
    obtain ⟨k, b⟩ := p
    obtain ⟨ws, hw⟩ := h (k, b) (by simp)
    simp only [Ymod.initLoop, hw]
    exact ih _ (fun p' hp' => h p' (List.mem_cons_of_mem _ hp'))

theorem initLoop_length (live : String → ℚ)
    (ds : List (ℤ × Ymod.YocotpuceBinding)) (acc vals : PyDict PyVal)
    (hok : Ymod.initLoop live acc ds = .ok vals)
    (hfresh : ∀ p ∈ ds, dictGet acc p.1 = none)
    (hnd : (ds.map Prod.fst).Nodup) :
    vals.length = acc.length + ds.length := by
  induction ds generalizing acc with
  | nil =>
    simp only [Ymod.initLoop] at hok
    obtain rfl := (Except.ok.injEq _ _).mp hok
    simp
  | cons p rest ih =>
    obtain ⟨k, b⟩ := p
    cases hw : Ymod.get_encoded_measure b live with
    | error e => simp [Ymod.initLoop, hw] at hok
    | ok ws =>
      simp only [Ymod.initLoop, hw] at hok
      have hkacc : dictGet acc k = none := hfresh (k, b) (by simp)
      have hnd2 : (k :: rest.map Prod.fst).Nodup := by simpa using hnd
      have hmemk : k ∉ rest.map Prod.fst := (List.nodup_cons.mp hnd2).1
      have hfresh' : ∀ p ∈ rest, dictGet (dictSet acc k (.plist ws)) p.1 = none := by
        intro p hp
        have hne : p.1 ≠ k := by
          intro hh
          exact hmemk (by exact hh ▸ List.mem_map_of_mem Prod.fst hp)
        rw [dictGet_dictSet_ne _ _ _ _ hne]
        exact hfresh p (List.mem_cons_of_mem _ hp)
      have hnd' : (rest.map Prod.fst).Nodup := (List.nodup_cons.mp hnd2).2
      rw [ih _ hok hfresh' hnd', dictSet_length_of_get_none acc k (.plist ws) hkacc]
      simp only [List.length_cons]
      omega

theorem encode_value_ok_length {enc : String} {v : ℚ} {ws : List ℕ}
    (h : Ymod.encode_value enc v = .ok ws) : ws.length = specWordCount enc := by
  unfold Ymod.encode_value at h
  by_cases h8 : enc = "int8"
  · simp only [h8, if_pos rfl] at h ⊢
    cases hp : add_8bit_int (pyInt v) with
    | error e => rw [hp] at h; exact absurd h (by simp)
    | ok p =>
      rw [hp] at h
      obtain rfl := (Except.ok.injEq _ _).mp h
      rw [add_8bit_int_ok hp]
      rfl
  · by_cases h16 : enc = "int16"
    · simp only [h8, h16, if_neg, if_pos rfl, reduceIte] at h ⊢
      cases hp : add_16bit_int (pyInt v) with
      | error e => rw [hp] at h; exact absurd h (by simp)
      | ok p =>
        rw [hp] at h
        obtain rfl := (Except.ok.injEq _ _).mp h
        rw [add_16bit_int_ok hp]
        rfl
    · by_cases h32 : enc = "int32"
      · simp only [h8, h16, h32, if_neg, if_pos rfl, reduceIte] at h ⊢
        cases hp : add_32bit_int (pyInt v) with
        | error e => rw [hp] at h; exact absurd h (by simp)
        | ok p =>
          rw [hp] at h
          obtain rfl := (Except.ok.injEq _ _).mp h
          rw [add_32bit_int_ok hp]
          rfl
      · by_cases hf16 : enc = "float16"
        · simp only [h8, h16, h32, hf16, if_neg, if_pos rfl, reduceIte] at h ⊢
          cases hp : add_16bit_float v with
          | error e => rw [hp] at h; exact absurd h (by simp)
          | ok p =>
            rw [hp] at h
            obtain rfl := (Except.ok.injEq _ _).mp h
            obtain ⟨bits, _, rfl⟩ := add_16bit_float_ok hp
            rfl
        · by_cases hf32 : enc = "float32"
          · simp only [h8, h16, h32, hf16, hf32, if_neg, if_pos rfl, reduceIte] at h ⊢
            cases hp : add_32bit_float v with
            | error e => rw [hp] at h; exact absurd h (by simp)
            | ok p =>
              rw [hp] at h
              obtain rfl := (Except.ok.injEq _ _).mp h
              obtain ⟨bits, _, rfl⟩ := add_32bit_float_ok hp
              rfl
          · simp only [h8, h16, h32, hf16, hf32, reduceIte, specWordCount] at h ⊢
            obtain rfl := (Except.ok.injEq _ _).mp h
            rfl

theorem encode_int8_ok {v : ℚ} {ws : List ℕ}
    (h : Ymod.encode_value "int8" v = .ok ws) :
    ws = [(pyInt v % 256).toNat * 256] := by
  unfold Ymod.encode_value at h
  simp only [reduceIte] at h
  cases hp : add_8bit_int (pyInt v) with
  | error e => rw [hp] at h; exact absurd h (by simp)
  | ok p =>
    rw [hp] at h
    obtain rfl := (Except.ok.injEq _ _).mp h
    rw [add_8bit_int_ok hp]
    rfl

theorem encode_int16_ok {v : ℚ} {ws : List ℕ}
    (h : Ymod.encode_value "int16" v = .ok ws) :
    ws = [(pyInt v % 65536).toNat] := by
  unfold Ymod.encode_value at h
  simp only [reduceIte] at h
  cases hp : add_16bit_int (pyInt v) with
  | error e => rw [hp] at h; exact absurd h (by simp)
  | ok p =>
    rw [hp] at h
    obtain rfl := (Except.ok.injEq _ _).mp h
    rw [add_16bit_int_ok hp]
    have hb : pyInt v % 65536 < 65536 := Int.emod_lt_of_pos _ (by norm_num)
    have hb0 : 0 ≤ pyInt v % 65536 := Int.emod_nonneg _ (by norm_num)
    have hu : (pyInt v % 65536).toNat < 65536 := by omega
    simp only [to_registers]
    congr 1
    omega

theorem encode_int32_ok {v : ℚ} {ws : List ℕ}
    (h : Ymod.encode_value "int32" v = .ok ws) :
    ws = [(pyInt v % 4294967296).toNat / 65536, (pyInt v % 4294967296).toNat % 65536] := by
  unfold Ymod.encode_value at h
  simp only [reduceIte] at h
  cases hp : add_32bit_int (pyInt v) with
  | error e => rw [hp] at h; exact absurd h (by simp)
  | ok p =>
    rw [hp] at h
    obtain rfl := (Except.ok.injEq _ _).mp h
    rw [add_32bit_int_ok hp]
    have hb : pyInt v % 4294967296 < 4294967296 := Int.emod_lt_of_pos _ (by norm_num)
    have hb0 : 0 ≤ pyInt v % 4294967296 := Int.emod_nonneg _ (by norm_num)
    have hu : (pyInt v % 4294967296).toNat < 4294967296 := by omega
    simp only [to_registers]
    congr 1
    · omega
    · congr 1
      omega

theorem encode_float32_ok {v : ℚ} {ws : List ℕ}
    (h : Ymod.encode_value "float32" v = .ok ws) :
    ∃ bits, ieeeBits 23 8 v = .ok bits ∧ ws = [bits / 65536 % 65536, bits % 65536] := by
  unfold Ymod.encode_value at h
  simp only [reduceIte] at h
  cases hp : add_32bit_float v with
  | error e => rw [hp] at h; exact absurd h (by simp)
  | ok p =>
    rw [hp] at h
    obtain rfl := (Except.ok.injEq _ _).mp h
    obtain ⟨bits, hbits, rfl⟩ := add_32bit_float_ok hp
    refine ⟨bits, hbits, ?_⟩
    simp only [to_registers]
    congr 1
    · omega
    · congr 1
      omega

theorem encode_int8_of_inrange (v : ℚ) (h : -128 ≤ pyInt v ∧ pyInt v ≤ 127) :
    Ymod.encode_value "int8" v = .ok [(pyInt v % 256).toNat * 256] := by
  have hadd : add_8bit_int (pyInt v) = .ok [(pyInt v % 256).toNat] := by
    unfold add_8bit_int
    rw [if_pos h]
  unfold Ymod.encode_value
  simp only [reduceIte, hadd, to_registers]

theorem encode_int8_of_outrange (v : ℚ) (h : ¬(-128 ≤ pyInt v ∧ pyInt v ≤ 127)) :
    Ymod.encode_value "int8" v = .error .structError := by
  have hadd : add_8bit_int (pyInt v) = .error .structError := by
    unfold add_8bit_int
    rw [if_neg h]
  unfold Ymod.encode_value
  simp only [reduceIte, hadd]

theorem encode_int16_of_inrange (v : ℚ) (h : -32768 ≤ pyInt v ∧ pyInt v ≤ 32767) :
    Ymod.encode_value "int16" v = .ok [(pyInt v % 65536).toNat] := by
  have hadd : add_16bit_int (pyInt v) =
      .ok [(pyInt v % 65536).toNat / 256 % 256, (pyInt v % 65536).toNat % 256] := by
    unfold add_16bit_int
    rw [if_pos h]
  unfold Ymod.encode_value
  rw [if_neg (show ¬("int16" : String) = "int8" by decide),
    if_pos (rfl : ("int16" : String) = "int16"), hadd]
  simp only [to_registers, Except.ok.injEq, List.cons.injEq, and_true]
  have hb : pyInt v % 65536 < 65536 := Int.emod_lt_of_pos _ (by norm_num)
  have hb0 : 0 ≤ pyInt v % 65536 := Int.emod_nonneg _ (by norm_num)
  omega

theorem encode_int16_of_outrange (v : ℚ) (h : ¬(-32768 ≤ pyInt v ∧ pyInt v ≤ 32767)) :
    Ymod.encode_value "int16" v = .error .structError := by
  have hadd : add_16bit_int (pyInt v) = .error .structError := by
    unfold add_16bit_int
    rw [if_neg h]
  unfold Ymod.encode_value
  rw [if_neg (show ¬("int16" : String) = "int8" by decide),
    if_pos (rfl : ("int16" : String) = "int16"), hadd]

theorem encode_int32_of_inrange (v : ℚ)
    (h : -2147483648 ≤ pyInt v ∧ pyInt v ≤ 2147483647) :
    Ymod.encode_value "int32" v =
      .ok [(pyInt v % 4294967296).toNat / 65536, (pyInt v % 4294967296).toNat % 65536] := by
  have hadd : add_32bit_int (pyInt v) =
      .ok [(pyInt v % 4294967296).toNat / 16777216 % 256,
        (pyInt v % 4294967296).toNat / 65536 % 256,
        (pyInt v % 4294967296).toNat / 256 % 256, (pyInt v % 4294967296).toNat % 256] := by
    unfold add_32bit_int
    rw [if_pos h]
  unfold Ymod.encode_value
  rw [if_neg (show ¬("int32" : String) = "int8" by decide),
    if_neg (show ¬("int32" : String) = "int16" by decide),
    if_pos (rfl : ("int32" : String) = "int32"), hadd]
  simp only [to_registers, Except.ok.injEq, List.cons.injEq, and_true]
  have hb : pyInt v % 4294967296 < 4294967296 := Int.emod_lt_of_pos _ (by norm_num)
  have hb0 : 0 ≤ pyInt v % 4294967296 := Int.emod_nonneg _ (by norm_num)
  have hu : (pyInt v % 4294967296).toNat < 4294967296 := by omega
  omega

theorem encode_int32_of_outrange (v : ℚ)
    (h : ¬(-2147483648 ≤ pyInt v ∧ pyInt v ≤ 2147483647)) :
    Ymod.encode_value "int32" v = .error .structError := by
  have hadd : add_32bit_int (pyInt v) = .error .structError := by
    unfold add_32bit_int
    rw [if_neg h]
  unfold Ymod.encode_value
  rw [if_neg (show ¬("int32" : String) = "int8" by decide),
    if_neg (show ¬("int32" : String) = "int16" by decide),
    if_pos (rfl : ("int32" : String) = "int32"), hadd]

/-- Claim C1 (as stated, refuted): with the Float32 binding of the spec's
own example at address 0x0010 and live value 23.5, the read with
`count = 1` — a window lying entirely inside the binding's footprint —
does not return the length-1 slice `[0x41BC]`; it returns the whole
two-word encoding `[0x41BC, 0x0000]`, ignoring `count`. -/
theorem c1_counterexample :
    Ymod.getValues devices1 live235 16 1 ≠ .ok [16828] ∧
    Ymod.getValues devices1 live235 16 1 = .ok [16828, 0] := by
  constructor
  · decide
  · decide

/-- Claim C1 (amended): a read whose start address is a binding's base
address returns the binding's complete encoded live value — of length
equal to the encoding's word count — for every requested `count`; the
result is never sliced to the window (and window positions other than
the base address are not served at all, see C4). -/
theorem c1_read_returns_full_encoding
    (devices : PyDict Ymod.YocotpuceBinding) (live : String → ℚ) (a : ℤ)
    (count : ℕ) (b : Ymod.YocotpuceBinding) (ws : List ℕ)
    (hb : dictGet devices a = some b)
    (henc : Ymod.encode_value b.encoding (live b.hwid) = .ok ws) :
    Ymod.getValues devices live a count = .ok ws ∧
    ws.length = specWordCount b.encoding := by
  constructor
  · unfold Ymod.getValues
    rw [hb]
    exact henc
  · exact encode_value_ok_length henc

/-- Witness for C1: the spec example itself, `read(0x0010, 2)` with live
value 23.5, returning the two big-endian words of the IEEE-754 single
bit pattern of 23.5. -/
theorem c1_witness :
    Ymod.getValues devices1 live235 16 2 = .ok [16828, 0] ∧
    ([16828, 0] : List ℕ).length = specWordCount "float32" :=
  c1_read_returns_full_encoding devices1 live235 16 2 ⟨16, "s1", "float32"⟩
    [16828, 0] (by decide) (by decide)

/-- Claim C2 (confirmed): writing any values anywhere always succeeds,
mutates only the scratch values dict inherited from the sparse data
block (the devices dict is untouched), and a subsequent read of a
live-sourced base address returns the freshly encoded current live
value; no read result whatsoever is affected by the write. -/
theorem c2_write_has_no_effect_on_reads
    (blk : Ymod.YoctopuceDataBlock) (live : String → ℚ) (a : ℤ) (v : List ℤ)
    (count : ℕ) (a' : ℤ) (count' : ℕ) (b : Ymod.YocotpuceBinding) (ws : List ℕ)
    (hb : dictGet blk.devices a = some b)
    (henc : Ymod.get_encoded_measure b live = .ok ws) :
    (blk.setValues a v).getValues live a count = .ok ws ∧
    (blk.setValues a v).getValues live a' count' = blk.getValues live a' count' ∧
    (blk.setValues a v).devices = blk.devices := by
  refine ⟨?_, rfl, rfl⟩
  show Ymod.getValues blk.devices live a count = .ok ws
  unfold Ymod.getValues
  rw [hb]
  exact henc

/-- Witness for C2: write `[9, 9]` at the Float32 binding's address, then
read it back — the result is the encoded live value 23.5, not the
written data, and an arbitrary other read is also unchanged. -/
theorem c2_witness :
    (blk1.setValues 16 [9, 9]).getValues live235 16 1 = .ok [16828, 0] ∧
    (blk1.setValues 16 [9, 9]).getValues live235 153 7 = blk1.getValues live235 153 7 ∧
    (blk1.setValues 16 [9, 9]).devices = blk1.devices :=
  c2_write_has_no_effect_on_reads blk1 live235 16 [9, 9] 1 153 7
    ⟨16, "s1", "float32"⟩ [16828, 0] (by decide) (by decide)

/-- Claim C3 (as stated, refuted): constructing the register space from
two bindings whose footprints intersect (a Float32 at 0x0010 occupying
16..17 and an Int16 at 0x0011 occupying 17) does not fail at all, and
constructing from the empty binding sequence does not fail either. -/
theorem c3_counterexample :
    specFootprintsIntersect ⟨16, "s1", "float32"⟩ ⟨17, "s2", "int16"⟩ ∧
    Ymod.YoctopuceDataBlock.init devicesOverlap liveOne =
      .ok ⟨devicesOverlap, [(16, .plist [16256, 0]), (17, .plist [1]), (0xbeef, .pint 2)]⟩ ∧
    Ymod.YoctopuceDataBlock.init [] liveOne = .ok ⟨[], [(0xbeef, .pint 0)]⟩ := by
  refine ⟨?_, by decide, by decide⟩
  constructor
  · show (16 : ℤ) < 17 + (specWordCount "int16" : ℤ)
    decide
  · show (17 : ℤ) < 16 + (specWordCount "float32" : ℤ)
    decide

/-- Claim C3 (amended): construction performs no overlap check and no
emptiness check whatsoever — it succeeds for every binding sequence
(overlapping footprints and the empty sequence included) whenever each
binding's current live value encodes without error; neither an
`OverlappingBindings` nor an `EmptyMap` failure exists in the code. -/
theorem c3_construct_never_checks_overlap_or_emptiness
    (devices : PyDict Ymod.YocotpuceBinding) (live : String → ℚ)
    (h : ∀ p ∈ devices, ∃ ws, Ymod.get_encoded_measure p.2 live = .ok ws) :
    ∃ blk, Ymod.YoctopuceDataBlock.init devices live = .ok blk := by
  obtain ⟨vals, hv⟩ := initLoop_ok_exists live devices [] h
  exact ⟨_, by unfold Ymod.YoctopuceDataBlock.init; rw [hv]⟩

/-- Witness for C3: construction over the two overlapping bindings
succeeds. -/
theorem c3_witness :
    ∃ blk, Ymod.YoctopuceDataBlock.init devicesOverlap liveOne = .ok blk :=
  c3_construct_never_checks_overlap_or_emptiness devicesOverlap liveOne (by
    intro p hp
    simp only [devicesOverlap, List.mem_cons, List.not_mem_nil, or_false] at hp
    rcases hp with rfl | rfl
    · exact ⟨[16256, 0], by decide⟩
    · exact ⟨[1], by decide⟩)

/-- Claim C4 (as stated, refuted): reading the unmapped address 0x0099
(no binding there and not the metadata slot) does not return the
zero-fill policy value `[0]`; it raises `KeyError`. -/
theorem c4_counterexample :
    Ymod.getValues devices1 live235 153 1 = .error .keyError ∧
    Ymod.getValues devices1 live235 153 1 ≠ .ok [0] := by
  constructor
  · decide
  · decide

/-- Claim C4 (amended): a read whose start address is not a key of the
devices dict — an entirely unmapped address, an interior address of
some binding's footprint, or the metadata slot alike — raises
`KeyError` instead of returning the zero unmapped-policy value. -/
theorem c4_unmapped_read_raises_keyerror
    (devices : PyDict Ymod.YocotpuceBinding) (live : String → ℚ) (a : ℤ)
    (count : ℕ) (h : dictGet devices a = none) :
    Ymod.getValues devices live a count = .error .keyError ∧
    Ymod.getValues devices live a count ≠ .ok (List.replicate count 0) := by
  have h1 : Ymod.getValues devices live a count = .error .keyError := by
    unfold Ymod.getValues
    rw [h]
  exact ⟨h1, by rw [h1]; simp⟩

/-- Witness for C4: address 0x0063 is unmapped in `devices1`. -/
theorem c4_witness :
    Ymod.getValues devices1 live235 99 1 = .error .keyError ∧
    Ymod.getValues devices1 live235 99 1 ≠ .ok (List.replicate 1 0) :=
  c4_unmapped_read_raises_keyerror devices1 live235 99 1 (by decide)

/-- Claim C5 (as stated, refuted): encoding the float value 1000.0 with
the Int8 encoding does not return a 1-word register sequence — it
raises `struct.error`, because `struct.pack` refuses out-of-range
integers. -/
theorem c5_counterexample :
    Ymod.encode_value "int8" 1000 = .error .structError := by decide

/-- Claim C5 (amended): whenever encoding succeeds, the register
sequence has exactly the encoding's fixed word count — Int8 1, Int16 1,
Int32 2, Float16 1, Float32 2 — and for the two-word encodings the most
significant word comes first (made explicit for Int32 by the value
formula and for Float32 by the bit-pattern split). -/
theorem c5_encode_lengths_and_word_order
    (v1 v2 v3 v4 v5 : ℚ) (w1 w2 w3 w4 w5 : List ℕ)
    (h1 : Ymod.encode_value "int8" v1 = .ok w1)
    (h2 : Ymod.encode_value "int16" v2 = .ok w2)
    (h3 : Ymod.encode_value "int32" v3 = .ok w3)
    (h4 : Ymod.encode_value "float16" v4 = .ok w4)
    (h5 : Ymod.encode_value "float32" v5 = .ok w5) :
    w1.length = 1 ∧ w2.length = 1 ∧ w3.length = 2 ∧ w4.length = 1 ∧ w5.length = 2 ∧
    w3 = [(pyInt v3 % 4294967296).toNat / 65536, (pyInt v3 % 4294967296).toNat % 65536] ∧
    ∃ bits, ieeeBits 23 8 v5 = .ok bits ∧ w5 = [bits / 65536 % 65536, bits % 65536] := by
  refine ⟨encode_value_ok_length h1, encode_value_ok_length h2,
    encode_value_ok_length h3, encode_value_ok_length h4, encode_value_ok_length h5,
    encode_int32_ok h3, encode_float32_ok h5⟩

/-- Witness for C5: all five encodings succeed at the live value 23.5
and produce the advertised word counts. -/
theorem c5_witness :
    ([5888] : List ℕ).length = 1 ∧ ([23] : List ℕ).length = 1 ∧
    ([0, 23] : List ℕ).length = 2 ∧ ([19936] : List ℕ).length = 1 ∧
    ([16828, 0] : List ℕ).length = 2 ∧
    ([0, 23] : List ℕ) = [(pyInt (⟨47, 2, by norm_num, by norm_num⟩ : ℚ) % 4294967296).toNat / 65536,
      (pyInt (⟨47, 2, by norm_num, by norm_num⟩ : ℚ) % 4294967296).toNat % 65536] ∧
    ∃ bits, ieeeBits 23 8 (⟨47, 2, by norm_num, by norm_num⟩ : ℚ) = .ok bits ∧
      ([16828, 0] : List ℕ) = [bits / 65536 % 65536, bits % 65536] :=
  c5_encode_lengths_and_word_order
    (⟨47, 2, by norm_num, by norm_num⟩ : ℚ) (⟨47, 2, by norm_num, by norm_num⟩ : ℚ)
    (⟨47, 2, by norm_num, by norm_num⟩ : ℚ) (⟨47, 2, by norm_num, by norm_num⟩ : ℚ)
    (⟨47, 2, by norm_num, by norm_num⟩ : ℚ)
    [5888] [23] [0, 23] [19936] [16828, 0]
    (by decide) (by decide) (by decide) (by decide) (by decide)
/-- Claim C6 (as stated, refuted): encoding 200.0 with Int8 does not
clamp to the boundary value 127 (which would yield the register
`[0x7F00]` = `[32512]`); it raises `struct.error`. -/
theorem c6_counterexample :
    Ymod.encode_value "int8" 200 = .error .structError ∧
    Ymod.encode_value "int8" 200 ≠ .ok [32512] := by
  constructor
  · decide
  · decide

/-- Claim C6 (amended): every integer encoding first truncates the value
toward zero (`pyInt`); if the truncated integer lies in the encoding's
signed range it is packed as its two's complement (Int8 in the high
byte of its single word, Int16 as one word, Int32 as two words most
significant first) — but a truncated integer outside the range raises
`struct.error`: there is no clamping and no wraparound. -/
theorem c6_integer_encodings_truncate_then_raise
    (v1 u1 v2 u2 v3 u3 : ℚ)
    (h1 : -128 ≤ pyInt v1 ∧ pyInt v1 ≤ 127)
    (g1 : ¬(-128 ≤ pyInt u1 ∧ pyInt u1 ≤ 127))
    (h2 : -32768 ≤ pyInt v2 ∧ pyInt v2 ≤ 32767)
    (g2 : ¬(-32768 ≤ pyInt u2 ∧ pyInt u2 ≤ 32767))
    (h3 : -2147483648 ≤ pyInt v3 ∧ pyInt v3 ≤ 2147483647)
    (g3 : ¬(-2147483648 ≤ pyInt u3 ∧ pyInt u3 ≤ 2147483647)) :
    Ymod.encode_value "int8" v1 = .ok [(pyInt v1 % 256).toNat * 256] ∧
    Ymod.encode_value "int8" u1 = .error .structError ∧
    Ymod.encode_value "int16" v2 = .ok [(pyInt v2 % 65536).toNat] ∧
    Ymod.encode_value "int16" u2 = .error .structError ∧
    Ymod.encode_value "int32" v3 =
      .ok [(pyInt v3 % 4294967296).toNat / 65536, (pyInt v3 % 4294967296).toNat % 65536] ∧
    Ymod.encode_value "int32" u3 = .error .structError :=
  ⟨encode_int8_of_inrange v1 h1, encode_int8_of_outrange u1 g1,
    encode_int16_of_inrange v2 h2, encode_int16_of_outrange u2 g2,
    encode_int32_of_inrange v3 h3, encode_int32_of_outrange u3 g3⟩

/-- Witness for C6: -3.0 encodes in range for all three integer widths
(two's complement 0xFD00, 0xFFFD and 0xFFFF,0xFFFD), while 200.0,
40000.0 and 3000000000.0 are out of range for Int8, Int16 and Int32
respectively and raise `struct.error`. -/
theorem c6_witness :
    Ymod.encode_value "int8" (-3) = .ok [(pyInt (-3 : ℚ) % 256).toNat * 256] ∧
    Ymod.encode_value "int8" 200 = .error .structError ∧
    Ymod.encode_value "int16" (-3) = .ok [(pyInt (-3 : ℚ) % 65536).toNat] ∧
    Ymod.encode_value "int16" 40000 = .error .structError ∧
    Ymod.encode_value "int32" (-3) =
      .ok [(pyInt (-3 : ℚ) % 4294967296).toNat / 65536,
        (pyInt (-3 : ℚ) % 4294967296).toNat % 65536] ∧
    Ymod.encode_value "int32" 3000000000 = .error .structError :=
  c6_integer_encodings_truncate_then_raise (-3) 200 (-3) 40000 (-3) 3000000000
    (by decide) (by decide) (by decide) (by decide) (by decide) (by decide)

/-- Claim C7 (as stated, refuted): loading a configuration entry whose
encoding-name field is "int9" — not in the closed encoding set — does
not fail at all: the loader stores the name verbatim and returns the
binding. -/
theorem c7_counterexample :
    Ymod.read_device_map ["0x0010,sensor1,int9"] = .ok [(16, ⟨16, "sensor1", "int9"⟩)] := by
  decide

/-- Claim C7 (amended): the loader performs no validation of the
encoding-name field — an entry with the unrecognized name "int9" loads
successfully with the name stored verbatim (no `UnknownEncoding`
failure exists); an unrecognized name only manifests later, when
encoding falls through every branch and produces the empty register
list. -/
theorem c7_loader_accepts_unknown_encoding_names
    (enc : String) (v : ℚ)
    (h8 : enc ≠ "int8") (h16 : enc ≠ "int16") (h32 : enc ≠ "int32")
    (hf16 : enc ≠ "float16") (hf32 : enc ≠ "float32") :
    Ymod.read_device_map ["0x0010,sensor1,int9"] = .ok [(16, ⟨16, "sensor1", "int9"⟩)] ∧
    Ymod.encode_value enc v = .ok [] := by
  refine ⟨by decide, ?_⟩
  unfold Ymod.encode_value
  rw [if_neg h8, if_neg h16, if_neg h32, if_neg hf16, if_neg hf32]
  rfl

/-- Witness for C7: the name "int9" is none of the five recognized
encodings and encodes every value to the empty register list. -/
theorem c7_witness :
    Ymod.read_device_map ["0x0010,sensor1,int9"] = .ok [(16, ⟨16, "sensor1", "int9"⟩)] ∧
    Ymod.encode_value "int9" 5 = .ok [] :=
  c7_loader_accepts_unknown_encoding_names "int9" 5
    (by decide) (by decide) (by decide) (by decide) (by decide)

/-- Claim C8 (as stated, refuted): with three bindings configured, the
constructed block does not serve `read(0xBEEF, 1) = [3]`: its
`getValues` override consults only the devices dict, in which 0xBEEF is
no key, so the read raises `KeyError`. -/
theorem c8_counterexample :
    Ymod.YoctopuceDataBlock.init devices3 liveOne = .ok blk3 ∧
    blk3.getValues liveOne 0xbeef 1 = .error .keyError ∧
    blk3.getValues liveOne 0xbeef 1 ≠ .ok [3] := by
  refine ⟨by decide, by decide, by decide⟩

/-- Claim C8 (amended): construction does record the binding count at
the fixed metadata address 0xBEEF — but only in the scratch values dict
of the sparse base class, which the overriding `getValues` never
consults; a read of 0xBEEF on the constructed block raises `KeyError`,
so the stored count is unobservable through reads. -/
theorem c8_metadata_count_stored_but_unreadable
    (devices : PyDict Ymod.YocotpuceBinding) (live : String → ℚ)
    (blk : Ymod.YoctopuceDataBlock) (count : ℕ)
    (hnd : (devices.map Prod.fst).Nodup)
    (hbeef : dictGet devices 0xbeef = none)
    (hinit : Ymod.YoctopuceDataBlock.init devices live = .ok blk) :
    dictGet blk.values 0xbeef = some (.pint devices.length) ∧
    blk.getValues live 0xbeef count = .error .keyError := by
  unfold Ymod.YoctopuceDataBlock.init at hinit
  cases hv : Ymod.initLoop live [] devices with
  | error e => rw [hv] at hinit; exact absurd hinit (by simp)
  | ok vals =>
    rw [hv] at hinit
    obtain rfl := (Except.ok.injEq _ _).mp hinit
    have hlen : vals.length = devices.length := by
      have := initLoop_length live devices [] vals hv (fun p _ => rfl) hnd
      simpa using this
    constructor
    · show dictGet (dictSet vals 0xbeef (.pint vals.length)) 0xbeef = _
      rw [dictGet_dictSet_self, hlen]
    · show Ymod.getValues devices live 0xbeef count = .error .keyError
      unfold Ymod.getValues
      rw [hbeef]

/-- Witness for C8: the three-binding block of the spec's example stores
`.pint 3` at 0xBEEF yet raises `KeyError` when 0xBEEF is read. -/
theorem c8_witness :
    dictGet blk3.values 0xbeef = some (.pint devices3.length) ∧
    blk3.getValues liveOne 0xbeef 1 = .error .keyError :=
  c8_metadata_count_stored_but_unreadable devices3 liveOne blk3 1
    (by decide) (by decide) (by decide)

/-- Claim C9 (confirmed): in a well-formed device-map file in which an
earlier and a later line carry the same address field (and no following
line re-uses that address), loading succeeds with no duplicate-address
error, and the loaded map binds the address to the hardware id and
encoding of the later line — the earlier binding is silently discarded. -/
theorem c9_duplicate_address_last_line_wins
    (L M R : List String) (l1 l2 : String) (a : ℤ) (hw1 e1 hw2 e2 : String)
    (hp1 : Ymod.parseLine l1 = .ok (a, hw1, e1))
    (hp2 : Ymod.parseLine l2 = .ok (a, hw2, e2))
    (hall : ∀ l ∈ L ++ l1 :: M ++ l2 :: R, ∃ t, Ymod.parseLine l = .ok t)
    (hR : ∀ l ∈ R, ∀ hw enc, Ymod.parseLine l ≠ .ok (a, hw, enc)) :
    ∃ d, Ymod.read_device_map (L ++ l1 :: M ++ l2 :: R) = .ok d ∧
      dictGet d a = some ⟨a, hw2, e2⟩ := by
  have hsplit : L ++ l1 :: M ++ l2 :: R = (L ++ l1 :: M) ++ (l2 :: R) := by simp
  obtain ⟨dmid, hmid⟩ := readLoop_ok_exists (L ++ l1 :: M) []
    (fun l hl => hall l (by rw [hsplit]; exact List.mem_append_left _ hl))
  obtain ⟨d, hd⟩ := readLoop_ok_exists R (dictSet dmid a ⟨a, hw2, e2⟩)
    (fun l hl => hall l (by
      rw [hsplit]
      exact List.mem_append_right _ (List.mem_cons_of_mem _ hl)))
  refine ⟨d, ?_, ?_⟩
  · unfold Ymod.read_device_map
    rw [hsplit, readLoop_append, hmid]
    simp only [Ymod.readLoop, hp2]
    exact hd
  · rw [readLoop_get_of_absent R _ d a hd hR]
    exact dictGet_dictSet_self _ _ _

/-- Witness for C9: two lines both declaring address 0x0010; the loaded
map holds the second line's binding ("s2", Int32). -/
theorem c9_witness :
    ∃ d, Ymod.read_device_map ["0x0010,s1,int16", "0x0010,s2,int32"] = .ok d ∧
      dictGet d 16 = some ⟨16, "s2", "int32"⟩ :=
  c9_duplicate_address_last_line_wins [] [] [] "0x0010,s1,int16" "0x0010,s2,int32"
    16 "s1" "int16" "s2" "int32" (by decide) (by decide)
    (by
      intro l hl
      simp at hl
      rcases hl with rfl | rfl
      · exact ⟨(16, "s1", "int16"), by decide⟩
      · exact ⟨(16, "s2", "int32"), by decide⟩)
    (by intro l hl; simp at hl)

/-- Claim C10 (as stated, refuted): at the same mapped address 0x0010
with the same live value 1.0, the read of `src/ymodbustcp.py` returns
the register list `[1]` (the Int16 encoding of 1.0) while the read of
`src/main.py` returns the bare integer 1000 (the live value scaled by
1000 and truncated) — the two variants are not equivalent. -/
theorem c10_counterexample :
    Ymod.getValuesV devicesI liveOne 16 1 = .ok (.plist [1]) ∧
    MainPy.getValuesV devicesM liveOne 16 1 = .ok (.pint 1000) ∧
    Ymod.getValuesV devicesI liveOne 16 1 ≠ MainPy.getValuesV devicesM liveOne 16 1 := by
  have hmain : MainPy.getValues devicesM liveOne 16 1 = .ok 1000 := by
    simp [MainPy.getValues, devicesM, dictGet, liveOne]
    norm_num [pyInt]
  have hy : Ymod.getValuesV devicesI liveOne 16 1 = .ok (.plist [1]) := by decide
  have hm : MainPy.getValuesV devicesM liveOne 16 1 = .ok (.pint 1000) := by
    unfold MainPy.getValuesV
    rw [hmain]
    rfl
  refine ⟨hy, hm, ?_⟩
  rw [hy, hm]
  simp

/-- Claim C10 (amended): the two `getValues` variants agree only in
shape — both ignore `count` and depend solely on the devices map and
the current live value — but they are not equivalent as functions: at
any mapped address where the ymodbustcp variant succeeds it returns a
register list, while the main.py variant returns a bare scaled integer,
and a Python list never equals a Python int. -/
theorem c10_variants_not_equivalent
    (dy : PyDict Ymod.YocotpuceBinding) (dm : PyDict String) (live : String → ℚ)
    (a : ℤ) (count count' : ℕ) (hw : String) (ws : List ℕ)
    (hm : dictGet dm a = some hw)
    (hy : Ymod.getValues dy live a count = .ok ws) :
    Ymod.getValues dy live a count' = .ok ws ∧
    MainPy.getValues dm live a count = MainPy.getValues dm live a count' ∧
    Ymod.getValuesV dy live a count ≠ MainPy.getValuesV dm live a count := by
  refine ⟨hy, rfl, ?_⟩
  have hmain : MainPy.getValues dm live a count = .ok (pyInt (live hw * 1000)) := by
    unfold MainPy.getValues
    rw [hm]
  unfold Ymod.getValuesV MainPy.getValuesV
  rw [hy, hmain]
  simp [Except.map]

/-- Witness for C10: the Int16 binding at 0x0010 with live value 1.0 —
the ymodbustcp read returns `[1]` for any `count` and differs from the
main.py read. -/
theorem c10_witness :
    Ymod.getValues devicesI liveOne 16 2 = .ok [1] ∧
    MainPy.getValues devicesM liveOne 16 1 = MainPy.getValues devicesM liveOne 16 2 ∧
    Ymod.getValuesV devicesI liveOne 16 1 ≠ MainPy.getValuesV devicesM liveOne 16 1 :=
  c10_variants_not_equivalent devicesI devicesM liveOne 16 1 2 "s1" [1]
    (by decide) (by decide)
